import Mathlib

/-!
Verification of the MegaPose client binary protocol layer
(modules/tracker/dnn/src/vpMegaPose.cpp).

The development shallowly embeds the serialization (encode/decode template
specializations), the message framing (makeMessage/readMessage), the response
validation (handleWrongReturnMessage) and the argument validation of the RPC
operations (estimatePoses, scorePoses, setIntrinsics, constructor).

Modelling conventions:
- bytes are naturals below 256, buffers are lists of naturals;
- C++ int is modelled as Int, the int/uint32_t conversions are explicit
  modular arithmetic;
- a 32-bit float value is identified with its 32-bit pattern (a natural
  below 2 ^ 32): the codec only ever moves the bit pattern, never performs
  floating-point arithmetic;
- the double entries of a vpHomogeneousMatrix live in an arbitrary type
  with an explicit double-to-float bit-pattern cast (the C++ cast
  (float)data[i]) and float-to-double widening passed as parameters;
- exceptions become an error type; an Option result of a decoder is none
  exactly when the C++ would read outside the buffer, which is undefined
  behaviour there (the source contains no bounds check and no exception on
  that path).
-/

namespace Megapose

/-- Big-endian byte digits of the low 32 bits of a natural number. This is
what htonl followed by a 4-byte memcpy appends on any host. -/
def be32 (n : Nat) : List Nat :=
  [n / 2 ^ 24 % 256, n / 2 ^ 16 % 256, n / 2 ^ 8 % 256, n % 256]

/-- Byte of a buffer at an index, 0 past the end (reads past the end are
screened separately by explicit bounds checks in the decoders). -/
def getByte (buf : List Nat) (i : Nat) : Nat := buf.getD i 0

/-- Value of the 4 bytes at an index read as one big-endian 32-bit number;
this is what reading an uint32_t from memory followed by ntohl yields on
any host. -/
def readU32 (buf : List Nat) (i : Nat) : Nat :=
  getByte buf i * 2 ^ 24 + getByte buf (i + 1) * 2 ^ 16 +
    getByte buf (i + 2) * 2 ^ 8 + getByte buf (i + 3)

/-- C++ conversion of int to uint32_t (two's complement, mod 2 ^ 32). -/
def intToU32 (n : Int) : Nat := (n % (2 ^ 32 : Int)).toNat

/-- C++ conversion of uint32_t back to int (wrap above 2 ^ 31). -/
def u32ToInt (u : Nat) : Int := if u < 2 ^ 31 then (u : Int) else (u : Int) - 2 ^ 32

/-- Bytes appended by the encode specialization for int
(vpMegaPose.cpp lines 33-39): htonl of the value, four bytes. -/
def encInt (n : Int) : List Nat := be32 (intToU32 n)

/-- Bytes appended by the encode specialization for std::string
(vpMegaPose.cpp lines 50-57): int length first, then the raw bytes. -/
def encString (s : List Nat) : List Nat := encInt s.length ++ s

/-- Decode specialization for int (vpMegaPose.cpp lines 143-149): reads 4
bytes at the cursor, ntohl, advances the cursor by 4. none models the
out-of-bounds read the C++ performs when fewer than 4 bytes remain. -/
def decInt (buf : List Nat) (i : Nat) : Option (Int × Nat) :=
  if i + 4 ≤ buf.length then some (u32ToInt (readU32 buf i), i + 4) else none

/-- Decode specialization for float (vpMegaPose.cpp lines 150-157): reads 4
bytes, ntohl, memcpy of the 32-bit pattern into the float. The result is the
bit pattern. none models the out-of-bounds read on a short buffer. -/
def decF32 (buf : List Nat) (i : Nat) : Option (Nat × Nat) :=
  if i + 4 ≤ buf.length then some (readU32 buf i, i + 4) else none

/-- Decode specialization for std::string (vpMegaPose.cpp lines 158-166):
reads an int size, then copies size bytes. none models the C++ behaviour on
a negative size (resize on a huge size_t) or on reading past the buffer. -/
def decString (buf : List Nat) (i : Nat) : Option (List Nat × Nat) :=
  (decInt buf i).bind fun (sz, i1) =>
    if 0 ≤ sz ∧ i1 + sz.toNat ≤ buf.length then
      some ((buf.drop i1).take sz.toNat, i1 + sz.toNat)
    else none

/-- Wire types handled by the value codec of the claims: int, float, string,
homogeneous sequences (std::vector, arbitrarily nested) and the 4x4 rigid
transform (vpHomogeneousMatrix). -/
inductive Ty where
  | tInt
  | tFloat
  | tString
  | tSeq (elem : Ty)
  | tHomMat
deriving DecidableEq, Repr

/-- In-memory values of the wire types. Float values are represented by
their 32-bit patterns. Matrix entries are doubles, living in an arbitrary
type alpha handled through explicit cast parameters. -/
inductive Val (α : Type) where
  | vInt (n : Int)
  | vFloat (bits : Nat)
  | vString (bytes : List Nat)
  | vSeq (elems : List (Val α))
  | vMat (entries : List α)

/-- Representability of a value at a wire type: ints fit in 32 bits,
float patterns fit in 32 bits, string bytes are bytes and lengths fit in
the int length field the C++ uses, a matrix has its 16 double entries. -/
def welltyped {α : Type} : Ty → Val α → Bool
  | .tInt, .vInt n => decide (-(2 ^ 31 : Int) ≤ n) && decide (n < (2 ^ 31 : Int))
  | .tFloat, .vFloat b => decide (b < 2 ^ 32)
  | .tString, .vString s => decide (s.length < 2 ^ 31) && s.all (fun c => decide (c < 256))
  | .tSeq e, .vSeq vs => decide (vs.length < 2 ^ 31) && vs.all (fun v => welltyped e v)
  | .tHomMat, .vMat es => decide (es.length = 16)
  | _, _ => false

/-- Bytes appended by the encode specializations (vpMegaPose.cpp lines
33-66 and 115-125), per wire type. d2f is the C++ cast (float)x applied to
a double matrix entry, yielding a 32-bit float pattern. A vector is encoded
as its int size followed by its encoded elements; a vpHomogeneousMatrix as
the float vector of its 16 cast entries. A value of the wrong shape for the
type has no C++ counterpart and encodes to nothing. -/
def encode {α : Type} (d2f : α → Nat) : Ty → Val α → List Nat
  | .tInt, .vInt n => encInt n
  | .tFloat, .vFloat b => be32 b
  | .tString, .vString s => encString s
  | .tSeq e, .vSeq vs => encInt vs.length ++ (vs.map (encode d2f e)).flatten
  | .tHomMat, .vMat es => encInt 16 ++ ((es.take 16).map (fun x => be32 (d2f x))).flatten
  | _, _ => []

/-- Element loop of the decode specialization for std::vector
(vpMegaPose.cpp lines 168-179): decodes a given count of elements with the
element decoder, threading the cursor. -/
def decodeMany {α : Type} (d : List Nat → Nat → Option (Val α × Nat)) :
    Nat → List Nat → Nat → Option (List (Val α) × Nat)
  | 0, _, i => some ([], i)
  | n + 1, buf, i =>
    (d buf i).bind fun (v, i1) =>
      (decodeMany d n buf i1).map fun (vs, i2) => (v :: vs, i2)

/-- Element loop of the decode specialization for std::vector instantiated
at float, used by the vpHomogeneousMatrix decoder. -/
def decF32Many : Nat → List Nat → Nat → Option (List Nat × Nat)
  | 0, _, i => some ([], i)
  | n + 1, buf, i =>
    (decF32 buf i).bind fun (b, i1) =>
      (decF32Many n buf i1).map fun (bs, i2) => (b :: bs, i2)

/-- Decode specializations (vpMegaPose.cpp lines 143-190), per wire type.
f2d is the exact C++ widening of a 32-bit float value into a double matrix
entry. For a vector, an int count then that many elements; a negative
count, or a matrix float vector shorter than the 16 entries the copy loop
reads, is undefined behaviour in the C++ and maps to none. -/
def decode {α : Type} (f2d : Nat → α) : Ty → List Nat → Nat → Option (Val α × Nat)
  | .tInt, buf, i => (decInt buf i).map fun (n, i1) => (.vInt n, i1)
  | .tFloat, buf, i => (decF32 buf i).map fun (b, i1) => (.vFloat b, i1)
  | .tString, buf, i => (decString buf i).map fun (s, i1) => (.vString s, i1)
  | .tSeq e, buf, i =>
    (decInt buf i).bind fun (n, i1) =>
      if n < 0 then none
      else (decodeMany (decode f2d e) n.toNat buf i1).map fun (vs, i2) => (.vSeq vs, i2)
  | .tHomMat, buf, i =>
    (decInt buf i).bind fun (n, i1) =>
      if n < 0 then none
      else (decF32Many n.toNat buf i1).bind fun (fs, i2) =>
        if fs.length < 16 then none
        else some (.vMat ((fs.take 16).map f2d), i2)

/-- Rounding of a value through the matrix entry casts: matrix entries go
through double-to-float-to-double (single-precision rounding), recursively
below sequences; every other value is untouched. -/
def roundV {α : Type} (rnd : α → α) : Ty → Val α → Val α
  | .tSeq e, .vSeq vs => .vSeq (vs.map (roundV rnd e))
  | .tHomMat, .vMat es => .vMat (es.map rnd)
  | _, v => v

/-- Commands of the protocol (vpMegaPose.h ServerMessage). -/
inductive ServerMessage where
  | ERR
  | OK
  | GET_POSE
  | RET_POSE
  | SET_INTR
  | GET_VIZ
  | RET_VIZ
  | GET_SCORE
  | RET_SCORE
  | SET_SO3_GRID_SIZE
  | UNKNOWN
deriving DecidableEq, Repr

/-- ASCII bytes of a string literal. -/
def strBytes (s : String) : List Nat := s.data.map Char.toNat

/-- Command-to-code table (vpMegaPose.cpp lines 238-255, codeMap and
messageToString). codeMap.at throws std::out_of_range on UNKNOWN, which has
no entry; this is the none case. -/
def messageToString : ServerMessage → Option (List Nat)
  | .ERR => some (strBytes "RERR")
  | .OK => some (strBytes "OKOK")
  | .GET_POSE => some (strBytes "GETP")
  | .RET_POSE => some (strBytes "RETP")
  | .SET_INTR => some (strBytes "INTR")
  | .GET_VIZ => some (strBytes "GETV")
  | .RET_VIZ => some (strBytes "RETV")
  | .GET_SCORE => some (strBytes "GSCO")
  | .RET_SCORE => some (strBytes "RSCO")
  | .SET_SO3_GRID_SIZE => some (strBytes "SO3G")
  | .UNKNOWN => none

/-- Code-to-command lookup (vpMegaPose.cpp lines 257-265, stringToMessage):
scans the table for a matching code, UNKNOWN when none matches. The scan
order of the unordered_map is irrelevant since the codes are distinct. -/
def stringToMessage (s : List Nat) : ServerMessage :=
  if s = strBytes "RERR" then .ERR
  else if s = strBytes "OKOK" then .OK
  else if s = strBytes "GETP" then .GET_POSE
  else if s = strBytes "RETP" then .RET_POSE
  else if s = strBytes "INTR" then .SET_INTR
  else if s = strBytes "GETV" then .GET_VIZ
  else if s = strBytes "RETV" then .RET_VIZ
  else if s = strBytes "GSCO" then .GET_SCORE
  else if s = strBytes "RSCO" then .RET_SCORE
  else if s = strBytes "SO3G" then .SET_SO3_GRID_SIZE
  else .UNKNOWN

/-- Frame construction (vpMegaPose.cpp lines 267-278, makeMessage):
prepends the 4-byte htonl of the payload size (size_t truncated to
uint32_t) and the 4-byte command code to the payload. none corresponds to
the std::out_of_range thrown for UNKNOWN. -/
def makeMessage (m : ServerMessage) (data : List Nat) : Option (List Nat) :=
  (messageToString m).map fun code => be32 data.length ++ code ++ data

/-- Frame parsing (vpMegaPose.cpp lines 280-310, readMessage) on a stream
that delivers exactly the requested bytes while they are available: 4-byte
big-endian size, 4-byte code looked up through stringToMessage, then
exactly size payload bytes. none corresponds to the IOError thrown when
the stream ends before the frame is complete. -/
def unwrapFrame (buf : List Nat) : Option (ServerMessage × List Nat) :=
  if 8 ≤ buf.length then
    let size := readU32 buf 0
    let code := (buf.drop 4).take 4
    if 8 + size ≤ buf.length then some (stringToMessage code, (buf.drop 8).take size)
    else none
  else none

/-- Errors of the client, after the vpException types it throws: ioError,
badValue (used both for local validation failures and for server-reported
errors) and fatalError. outOfRange models the std::out_of_range escaping
from codeMap.at; oobRead marks executions in which the C++ reads or writes
out of bounds (undefined behaviour, no exception). -/
inductive MegaErr where
  | ioError (msg : List Nat)
  | badValue (msg : List Nat)
  | fatalError (msg : List Nat)
  | outOfRange
  | oobRead
deriving DecidableEq, Repr

/-- Response rejection (vpMegaPose.cpp lines 227-236,
handleWrongReturnMessage): a non-ERR code raises a fixed fatalError; ERR
decodes a string from the payload and raises badValue with the decoded
text after a fixed marker. -/
def handleWrongReturnMessage (code : ServerMessage) (buffer : List Nat) : MegaErr :=
  if code ≠ .ERR then
    .fatalError (strBytes "Megapose: got an unexpected message from the server")
  else
    match decString buffer 0 with
    | some (s, _) => .badValue (strBytes "Server error : " ++ s)
    | none => .oobRead

/-- Response validation pattern shared by every RPC operation
(for example vpMegaPose.cpp lines 405-407): the response code is accepted
when it equals the expected one, and otherwise handed to
handleWrongReturnMessage. -/
def validateResponse (expected actual : ServerMessage) (payload : List Nat) :
    Except MegaErr Unit :=
  if actual = expected then .ok () else .error (handleWrongReturnMessage actual payload)

/-- Payload loop of readMessage (vpMegaPose.cpp lines 298-306). The stream
delivers its bytes according to a schedule: the k-th call of read returns
min of the k-th schedule entry, the requested count and the remaining
stream. The C++ requests 4096 bytes on every iteration, regardless of how
many remain to complete the payload. Returns the bytes obtained and the
final read_total; the error is the IOError thrown when read returns 0. -/
def readLoop (size : Nat) : List Nat → Nat → List Nat → Except MegaErr (List Nat × Nat)
  | [], readTotal, _ =>
    if readTotal < size then .error (.ioError (strBytes "Error while reading data from socket"))
    else .ok ([], readTotal)
  | k :: rest, readTotal, stream =>
    if readTotal < size then
      let c := min (min k 4096) stream.length
      if c = 0 then .error (.ioError (strBytes "Error while reading data from socket"))
      else
        (readLoop size rest (readTotal + c) (stream.drop c)).map
          fun (bs, t) => (stream.take c ++ bs, t)
    else .ok ([], readTotal)

/-- Frame reception from a socket (vpMegaPose.cpp lines 280-310,
readMessage). Each read call delivers min of the next schedule entry, the
requested count and the remaining stream; a header read that does not
deliver exactly 4 bytes is an IOError. Returns the command, the payload
bytes the loop stored (the declared size of them; bytes beyond the declared
size are written past the end of the payload buffer in the C++) and the
total number of bytes consumed from the stream. -/
def readMessage (stream sched : List Nat) : Except MegaErr (ServerMessage × List Nat × Nat) :=
  match sched with
  | [] => .error (.ioError (strBytes "Error while reading data from socket"))
  | k0 :: sched1 =>
    let c0 := min (min k0 4) stream.length
    if c0 ≠ 4 then .error (.ioError (strBytes "Error while reading data from socket"))
    else
      let size := readU32 stream 0
      let stream1 := stream.drop 4
      match sched1 with
      | [] => .error (.ioError (strBytes "Error while reading data from socket"))
      | k1 :: sched2 =>
        let c1 := min (min k1 4) stream1.length
        if c1 ≠ 4 then .error (.ioError (strBytes "Error while reading data from socket"))
        else
          let code := stream1.take 4
          let stream2 := stream1.drop 4
          (readLoop size sched2 0 stream2).map
            fun (bs, t) => (stringToMessage code, bs.take size, 8 + t)

/-- One vpRGBa pixel: four byte components laid out R, G, B, A in memory. -/
structure RGBAPix where
  r : Nat
  g : Nat
  b : Nat
  a : Nat
deriving DecidableEq, Repr

/-- A vpImage of vpRGBa: height, width and the row-major pixel array. -/
structure ImageRGBa where
  height : Nat
  width : Nat
  bitmap : List RGBAPix
deriving DecidableEq, Repr

/-- A vpImage of uint16_t: height, width and the row-major pixel array,
each pixel a 16-bit value. -/
structure ImageU16 where
  height : Nat
  width : Nat
  bitmap : List Nat
deriving DecidableEq, Repr

/-- Memory bytes of a row-major uint16_t array on a host of the given
endianness: two bytes per pixel, low byte first on a little-endian host,
high byte first on a big-endian one, copied without byte-swapping. -/
def u16MemoryBytes (bigEndian : Bool) (pixels : List Nat) : List Nat :=
  (pixels.map fun v =>
    if bigEndian then [v / 256 % 256, v % 256] else [v % 256, v / 256 % 256]).flatten

/-- Endianness marker byte written by the uint16 image encoder
(vpMegaPose.cpp lines 96-99): ASCII 62 for a big-endian host (where htons
is the identity), ASCII 60 otherwise. -/
def endianMarker (bigEndian : Bool) : Nat := if bigEndian then 62 else 60

/-- Bytes appended by the encode specialization for vpImage of vpRGBa
(vpMegaPose.cpp lines 78-89): height, width and channel count 4 as ints,
then height times width pixels of 4 raw bytes each copied from memory. -/
def encodeImageRGBa (img : ImageRGBa) : List Nat :=
  encInt img.height ++ encInt img.width ++ encInt 4 ++
    ((img.bitmap.take (img.height * img.width)).map fun p => [p.r, p.g, p.b, p.a]).flatten

/-- Bytes appended by the encode specialization for vpImage of uint16_t
(vpMegaPose.cpp lines 91-106): height and width as ints, one endianness
marker byte, then height times width pixels of 2 raw bytes each copied
from memory without byte-swapping. No channel count is written. -/
def encodeImageU16 (bigEndian : Bool) (img : ImageU16) : List Nat :=
  encInt img.height ++ encInt img.width ++ [endianMarker bigEndian] ++
    u16MemoryBytes bigEndian (img.bitmap.take (img.height * img.width))

/-- Layout the C8 claim asserts for the uint16 image encoding, written from
the claim: the general image header of height, width and channel count
(each a 4-byte integer), then the endianness marker byte, then the raw
pixel bytes. -/
def claimImageU16Layout (bigEndian : Bool) (img : ImageU16) : List Nat :=
  encInt img.height ++ encInt img.width ++ encInt 1 ++ [endianMarker bigEndian] ++
    u16MemoryBytes bigEndian img.bitmap

/-- Layout of the amended C8 claim, written from the amended words: height
and width only (each a 4-byte integer, no channel count), then the
endianness marker byte, then the raw pixel bytes without byte-swapping. -/
def amendedImageU16Layout (bigEndian : Bool) (img : ImageU16) : List Nat :=
  encInt img.height ++ encInt img.width ++ [endianMarker bigEndian] ++
    u16MemoryBytes bigEndian img.bitmap

/-- A vpRect: only its counts matter here, the coordinates flow into the
externally produced JSON text, out of scope per the spec. -/
structure Rect where
  left : ℚ
  top : Nat
  w : Nat
  h : Nat
deriving DecidableEq, Repr

/-- The setIntrinsics request/response cycle (vpMegaPose.cpp lines
454-477). The camera parameters and dimensions flow into the JSON text
built by the external collaborator, which this model receives already
dumped as the byte list dump. The transport is a parameter: accepted is
the number of bytes the send call accepts (its return value, which the C++
ignores), response is what readMessage yields. Returns the outcome and the
list of frames handed to send. -/
def setIntrinsics (dump : List Nat) (accepted : Nat)
    (response : Except MegaErr (ServerMessage × List Nat)) :
    Except MegaErr Unit × List (List Nat) :=
  match makeMessage .SET_INTR (encString dump) with
  | none => (.error .outOfRange, [])
  | some frame =>
    match response with
    | .error e => (.error e, [frame])
    | .ok (code, payload) =>
      if code = .OK then (.ok (), [frame])
      else (.error (handleWrongReturnMessage code payload), [frame])

/-- Count check the C++ performs on an optional argument: a mismatch is
only possible when the argument was given (non-null pointer). -/
def countMismatch {β : Type} (o : Option (List β)) (n : Nat) : Bool :=
  match o with
  | none => false
  | some l => l.length ≠ n

/-- Argument validation and request construction of estimatePoses
(vpMegaPose.cpp lines 338-397), up to the send call. The JSON parameter
blob is external and enters as dump; refiner iterations only affect that
blob. An ok result carries the frame handed to send; an error result is
thrown before the send, so nothing reaches the transport. -/
def estimatePosesRequest (bigEndian : Bool) (image : ImageRGBa)
    (labels : List (List Nat)) (depth : Option ImageU16) (depthToM : ℚ)
    (detections : Option (List Rect)) (initialCTos : Option (List (List ℚ)))
    (dump : List Nat) : Except MegaErr (List Nat) :=
  if detections = none ∧ initialCTos = none then
    .error (.badValue (strBytes
      "You must either provide detections (bounding boxes) or initial pose estimates for Megapose to work."))
  else if countMismatch detections labels.length then
    .error (.badValue (strBytes "Same number of bounding boxes and labels must be provided."))
  else if countMismatch initialCTos labels.length then
    .error (.badValue (strBytes
      "An initial estimate should be given for each detected object in the image"))
  else if depth.isSome ∧ depthToM ≤ 0 then
    .error (.badValue (strBytes "When using depth, the scale factor should be specified."))
  else
    let data := encodeImageRGBa image ++ encString dump ++
      (match depth with
       | some d => encodeImageU16 bigEndian d
       | none => [])
    match makeMessage .GET_POSE data with
    | none => .error .outOfRange
    | some frame => .ok frame

/-- Argument validation and request construction of scorePoses
(vpMegaPose.cpp lines 415-436), up to the send call, with the JSON blob
external as in estimatePosesRequest. -/
def scorePosesRequest (image : ImageRGBa) (labels : List (List Nat))
    (cTos : List (List ℚ)) (dump : List Nat) : Except MegaErr (List Nat) :=
  if cTos.length ≠ labels.length then
    .error (.badValue (strBytes
      "The number of poses should be the same as the number of object labels"))
  else
    match makeMessage .GET_SCORE (encodeImageRGBa image ++ encString dump) with
    | none => .error .outOfRange
    | some frame => .ok frame

/-- The constructor (vpMegaPose.cpp lines 314-331): socket creation,
address parsing and connection are transport parameters; on success the
constructor runs the full setIntrinsics cycle before returning. Returns
the outcome and the frames handed to send. -/
def megaPoseConstruct (socketOk addrOk connectOk : Bool) (dump : List Nat)
    (accepted : Nat) (response : Except MegaErr (ServerMessage × List Nat)) :
    Except MegaErr Unit × List (List Nat) :=
  if !socketOk then
    (.error (.ioError (strBytes "Could not create socket to connect to MegaPose server")), [])
  else if !addrOk then
    (.error (.badValue (strBytes "Invalid ip address: ")), [])
  else if !connectOk then
    (.error (.ioError (strBytes "Could not connect to server")), [])
  else setIntrinsics dump accepted response

lemma getByte_append (pre l : List Nat) (k : Nat) :
    getByte (pre ++ l) (pre.length + k) = getByte l k := by
  unfold getByte
  rw [List.getD_append_right _ _ _ _ (Nat.le_add_right _ _)]
  simp

lemma readU32_append (pre post : List Nat) (a b c d : Nat) :
    readU32 (pre ++ a :: b :: c :: d :: post) pre.length =
      a * 2 ^ 24 + b * 2 ^ 16 + c * 2 ^ 8 + d := by
  unfold readU32
  have h0 := getByte_append pre (a :: b :: c :: d :: post) 0
  have h1 := getByte_append pre (a :: b :: c :: d :: post) 1
  have h2 := getByte_append pre (a :: b :: c :: d :: post) 2
  have h3 := getByte_append pre (a :: b :: c :: d :: post) 3
  simp only [Nat.add_zero] at h0
  rw [h0, h1, h2, h3]
  rfl

lemma readU32_be32 (pre post : List Nat) (u : Nat) :
    readU32 (pre ++ be32 u ++ post) pre.length = u % 2 ^ 32 := by
  have hc : be32 u ++ post =
      u / 2 ^ 24 % 256 :: u / 2 ^ 16 % 256 :: u / 2 ^ 8 % 256 :: u % 256 :: post := rfl
  rw [List.append_assoc, hc, readU32_append]
  omega

lemma length_be32 (u : Nat) : (be32 u).length = 4 := rfl

lemma intToU32_lt (n : Int) : intToU32 n < 2 ^ 32 := by
  unfold intToU32; omega

lemma u32ToInt_intToU32 (n : Int) (h1 : -(2 ^ 31) ≤ n) (h2 : n < 2 ^ 31) :
    u32ToInt (intToU32 n) = n := by
  unfold u32ToInt intToU32
  split <;> omega

lemma decInt_append (pre post : List Nat) (n : Int) (h1 : -(2 ^ 31) ≤ n) (h2 : n < 2 ^ 31) :
    decInt (pre ++ encInt n ++ post) pre.length = some (n, pre.length + 4) := by
  unfold decInt
  have hlen : (pre ++ encInt n ++ post).length = pre.length + 4 + post.length := by
    simp [encInt, length_be32]; omega
  rw [hlen]
  rw [if_pos (by omega)]
  unfold encInt
  rw [readU32_be32, Nat.mod_eq_of_lt (intToU32_lt n), u32ToInt_intToU32 n h1 h2]

lemma decInt_append_nat (pre post : List Nat) (k : Nat) (h : k < 2 ^ 31) :
    decInt (pre ++ encInt (k : Int) ++ post) pre.length = some ((k : Int), pre.length + 4) := by
  apply decInt_append
  · omega
  · omega

lemma decF32_append (pre post : List Nat) (b : Nat) (hb : b < 2 ^ 32) :
    decF32 (pre ++ be32 b ++ post) pre.length = some (b, pre.length + 4) := by
  unfold decF32
  have hlen : (pre ++ be32 b ++ post).length = pre.length + 4 + post.length := by
    simp [length_be32]; omega
  rw [hlen, if_pos (by omega), readU32_be32, Nat.mod_eq_of_lt hb]

lemma decString_append (pre post s : List Nat) (hlen : s.length < 2 ^ 31) :
    decString (pre ++ (encInt s.length ++ s) ++ post) pre.length =
      some (s, pre.length + 4 + s.length) := by
  unfold decString
  have hassoc : pre ++ (encInt s.length ++ s) ++ post = pre ++ encInt s.length ++ (s ++ post) := by
    simp [List.append_assoc]
  rw [hassoc, decInt_append_nat pre (s ++ post) s.length hlen]
  simp only [Option.some_bind]
  have htot : (pre ++ encInt (s.length : Int) ++ (s ++ post)).length =
      pre.length + 4 + s.length + post.length := by
    simp [encInt, length_be32]; omega
  rw [if_pos]
  · have hdrop : (pre ++ encInt (s.length : Int) ++ (s ++ post)).drop (pre.length + 4) =
        s ++ post := by
      have h48 : pre.length + 4 = (pre ++ encInt (s.length : Int)).length := by
        simp [encInt, length_be32]
      rw [h48, List.drop_left]
    rw [hdrop]
    simp [List.take_left]
  · constructor
    · omega
    · rw [htot]; omega

lemma decodeMany_flatten {α : Type} (dec : List Nat → Nat → Option (Val α × Nat))
    (enc : Val α → List Nat) (rnd : Val α → Val α) (vs : List (Val α)) :
    (∀ v ∈ vs, ∀ pre post : List Nat, dec (pre ++ enc v ++ post) pre.length =
        some (rnd v, pre.length + (enc v).length)) →
    ∀ pre post : List Nat,
      decodeMany dec vs.length (pre ++ (vs.map enc).flatten ++ post) pre.length =
        some (vs.map rnd, pre.length + ((vs.map enc).flatten).length) := by
  induction vs with
  | nil => intro _ pre post; simp [decodeMany]
  | cons v vs ih =>
    intro h pre post
    have hbuf : pre ++ ((v :: vs).map enc).flatten ++ post =
        pre ++ enc v ++ ((vs.map enc).flatten ++ post) := by
      simp [List.append_assoc]
    simp only [List.length_cons, decodeMany, hbuf]
    rw [h v (List.mem_cons_self v vs) pre ((vs.map enc).flatten ++ post)]
    simp only [Option.some_bind]
    have hpre : pre.length + (enc v).length = (pre ++ enc v).length := by simp
    have hbuf2 : pre ++ enc v ++ ((vs.map enc).flatten ++ post) =
        (pre ++ enc v) ++ (vs.map enc).flatten ++ post := by
      simp [List.append_assoc]
    rw [hpre, hbuf2,
      ih (fun w hw => h w (List.mem_cons_of_mem v hw)) (pre ++ enc v) post]
    simp [List.append_assoc]
    omega

lemma decF32Many_flatten (bs : List Nat) :
    (∀ b ∈ bs, b < 2 ^ 32) →
    ∀ pre post : List Nat,
      decF32Many bs.length (pre ++ (bs.map be32).flatten ++ post) pre.length =
        some (bs, pre.length + 4 * bs.length) := by
  induction bs with
  | nil => intro _ pre post; simp [decF32Many]
  | cons b bs ih =>
    intro h pre post
    have hbuf : pre ++ ((b :: bs).map be32).flatten ++ post =
        pre ++ be32 b ++ ((bs.map be32).flatten ++ post) := by
      simp [List.append_assoc]
    simp only [List.length_cons, decF32Many, hbuf]
    rw [decF32_append pre ((bs.map be32).flatten ++ post) b (h b (List.mem_cons_self b bs))]
    simp only [Option.some_bind]
    have hpre : pre.length + 4 = (pre ++ be32 b).length := by simp [length_be32]
    have hbuf2 : pre ++ be32 b ++ ((bs.map be32).flatten ++ post) =
        (pre ++ be32 b) ++ (bs.map be32).flatten ++ post := by
      simp [List.append_assoc]
    rw [hpre, hbuf2, ih (fun c hc => h c (List.mem_cons_of_mem b hc)) (pre ++ be32 b) post]
    simp [length_be32]
    omega

lemma flatten_map_be32_length (bs : List Nat) :
    ((bs.map be32).flatten).length = 4 * bs.length := by
  induction bs with
  | nil => simp
  | cons b bs ih => simp [ih, length_be32]; omega

/-- C1: for every supported wire type (32-bit integer, 32-bit float,
string, homogeneous sequence of any supported element type including
nested sequences, and 4x4 rigid-transform matrix) and every representable
value of that type, decoding the bytes produced by encode, with the cursor
starting where those bytes begin (after any pre bytes, before any post
bytes), reproduces the value exactly and advances the cursor by exactly
the number of bytes encode appended; the one exception is the matrix,
whose decoded entries are the originals rounded to single precision
(double-to-float cast d2f followed by the exact widening f2d). -/
theorem C1_round_trip {α : Type} (d2f : α → Nat) (f2d : Nat → α)
    (hd : ∀ x, d2f x < 2 ^ 32) (t : Ty) :
    ∀ (v : Val α), welltyped t v = true → ∀ pre post : List Nat,
      decode f2d t (pre ++ encode d2f t v ++ post) pre.length =
        some (roundV (fun x => f2d (d2f x)) t v,
          pre.length + (encode d2f t v).length) := by
  induction t with
  | tInt =>
    intro v hv pre post
    cases v with
    | vInt n =>
      simp only [welltyped, Bool.and_eq_true, decide_eq_true_eq] at hv
      simp only [encode, decode, roundV]
      rw [decInt_append pre post n hv.1 hv.2]
      simp [encInt, length_be32]
    | vFloat b => simp [welltyped] at hv
    | vString s => simp [welltyped] at hv
    | vSeq vs => simp [welltyped] at hv
    | vMat es => simp [welltyped] at hv
  | tFloat =>
    intro v hv pre post
    cases v with
    | vFloat b =>
      simp only [welltyped, decide_eq_true_eq] at hv
      simp only [encode, decode, roundV]
      rw [decF32_append pre post b hv]
      simp [length_be32]
    | vInt n => simp [welltyped] at hv
    | vString s => simp [welltyped] at hv
    | vSeq vs => simp [welltyped] at hv
    | vMat es => simp [welltyped] at hv
  | tString =>
    intro v hv pre post
    cases v with
    | vString s =>
      simp only [welltyped, Bool.and_eq_true, decide_eq_true_eq] at hv
      simp only [encode, decode, roundV, encString]
      rw [decString_append pre post s hv.1]
      simp [encInt, length_be32]
      omega
    | vInt n => simp [welltyped] at hv
    | vFloat b => simp [welltyped] at hv
    | vSeq vs => simp [welltyped] at hv
    | vMat es => simp [welltyped] at hv
  | tSeq e ih =>
    intro v hv pre post
    cases v with
    | vSeq vs =>
      simp only [welltyped, Bool.and_eq_true, decide_eq_true_eq, List.all_eq_true] at hv
      simp only [encode, decode, roundV]
      have hassoc : pre ++ (encInt vs.length ++ (vs.map (encode d2f e)).flatten) ++ post =
          pre ++ encInt vs.length ++ ((vs.map (encode d2f e)).flatten ++ post) := by
        simp [List.append_assoc]
      rw [hassoc, decInt_append_nat pre _ vs.length hv.1]
      simp only [Option.some_bind]
      rw [if_neg (by omega)]
      have htn : ((vs.length : Int)).toNat = vs.length := by omega
      rw [htn]
      have hpre4 : pre.length + 4 = (pre ++ encInt vs.length).length := by
        simp [encInt, length_be32]
      have hbuf2 : pre ++ encInt vs.length ++ ((vs.map (encode d2f e)).flatten ++ post) =
          (pre ++ encInt vs.length) ++ (vs.map (encode d2f e)).flatten ++ post := by
        simp [List.append_assoc]
      rw [hpre4, hbuf2,
        decodeMany_flatten (decode f2d e) (encode d2f e) (roundV (fun x => f2d (d2f x)) e) vs
          (fun w hw => ih w (hv.2 w hw)) (pre ++ encInt vs.length) post]
      simp [encInt, length_be32]
      omega
    | vInt n => simp [welltyped] at hv
    | vFloat b => simp [welltyped] at hv
    | vString s => simp [welltyped] at hv
    | vMat es => simp [welltyped] at hv
  | tHomMat =>
    intro v hv pre post
    cases v with
    | vMat es =>
      simp only [welltyped, decide_eq_true_eq] at hv
      simp only [encode, decode, roundV]
      have htake : es.take 16 = es := by rw [← hv, List.take_length]
      rw [htake]
      have hmm : es.map (fun x => be32 (d2f x)) = (es.map d2f).map be32 := by
        simp [List.map_map, Function.comp]
      rw [hmm]
      have hassoc : pre ++ (encInt 16 ++ ((es.map d2f).map be32).flatten) ++ post =
          pre ++ encInt 16 ++ (((es.map d2f).map be32).flatten ++ post) := by
        simp [List.append_assoc]
      rw [hassoc]
      have h16 : decInt (pre ++ encInt 16 ++ (((es.map d2f).map be32).flatten ++ post))
          pre.length = some ((16 : Int), pre.length + 4) := by
        apply decInt_append <;> norm_num
      rw [h16]
      simp only [Option.some_bind]
      rw [if_neg (by norm_num)]
      have htn : ((16 : Int)).toNat = 16 := rfl
      rw [htn]
      have hlen16 : (es.map d2f).length = 16 := by simp [hv]
      have hpre4 : pre.length + 4 = (pre ++ encInt 16).length := by
        simp [encInt, length_be32]
      have hbuf2 : pre ++ encInt 16 ++ (((es.map d2f).map be32).flatten ++ post) =
          (pre ++ encInt 16) ++ ((es.map d2f).map be32).flatten ++ post := by
        simp [List.append_assoc]
      rw [hpre4, hbuf2, ← hlen16,
        decF32Many_flatten (es.map d2f)
          (by intro b hb; obtain ⟨x, _, rfl⟩ := List.mem_map.mp hb; exact hd x)
          (pre ++ encInt 16) post]
      simp only [Option.some_bind]
      rw [if_neg (by simp [hlen16])]
      rw [List.take_length]
      have hmaps : (es.map d2f).map f2d = es.map (fun x => f2d (d2f x)) := by
        simp [List.map_map, Function.comp]
      rw [hmaps]
      have hlen2 : (encInt 16 ++ ((es.map d2f).map be32).flatten).length =
          4 + 4 * es.length := by
        rw [List.length_append, flatten_map_be32_length]
        simp [encInt, length_be32]
      rw [hlen2, ← hpre4, hlen16, hv]
    | vInt n => simp [welltyped] at hv
    | vFloat b => simp [welltyped] at hv
    | vString s => simp [welltyped] at hv
    | vSeq vs => simp [welltyped] at hv

/-- Witness for C1: a concrete nested value, a sequence holding a string
and a nested int sequence, and a concrete matrix, both round-tripped at a
non-zero cursor position. -/
theorem C1_round_trip_witness :
    (welltyped (Ty.tSeq (Ty.tSeq Ty.tInt))
        (Val.vSeq (α := Nat) [Val.vSeq [Val.vInt 5, Val.vInt (-3)]]) = true) ∧
    decode (id : Nat → Nat) (Ty.tSeq (Ty.tSeq Ty.tInt))
        ([9] ++ encode (fun x : Nat => x % 2 ^ 32) (Ty.tSeq (Ty.tSeq Ty.tInt))
          (Val.vSeq [Val.vSeq [Val.vInt 5, Val.vInt (-3)]]) ++ [7]) 1 =
      some (roundV (fun x => id (x % 2 ^ 32)) (Ty.tSeq (Ty.tSeq Ty.tInt))
          (Val.vSeq [Val.vSeq [Val.vInt 5, Val.vInt (-3)]]),
        1 + (encode (fun x : Nat => x % 2 ^ 32) (Ty.tSeq (Ty.tSeq Ty.tInt))
          (Val.vSeq [Val.vSeq [Val.vInt 5, Val.vInt (-3)]])).length) ∧
    (welltyped Ty.tHomMat (Val.vMat (α := Nat) (List.range 16)) = true) ∧
    decode (id : Nat → Nat) Ty.tHomMat
        ([] ++ encode (fun x : Nat => x % 2 ^ 32) Ty.tHomMat (Val.vMat (List.range 16)) ++ []) 0 =
      some (roundV (fun x => id (x % 2 ^ 32)) Ty.tHomMat (Val.vMat (List.range 16)),
        0 + (encode (fun x : Nat => x % 2 ^ 32) Ty.tHomMat (Val.vMat (List.range 16))).length) := by
  refine ⟨by rfl, ?_, by rfl, ?_⟩
  · exact C1_round_trip (fun x : Nat => x % 2 ^ 32) id
      (fun x => Nat.mod_lt x (by norm_num)) (Ty.tSeq (Ty.tSeq Ty.tInt))
      (Val.vSeq [Val.vSeq [Val.vInt 5, Val.vInt (-3)]]) (by rfl) [9] [7]
  · exact C1_round_trip (fun x : Nat => x % 2 ^ 32) id
      (fun x => Nat.mod_lt x (by norm_num)) Ty.tHomMat
      (Val.vMat (List.range 16)) (by rfl) [] []

/-- C2 (evidence for the code bug): when fewer bytes remain than a type
requires, every decoder reaches the path on which the C++ reads outside
the buffer (none in this model), instead of failing with any error; the
error type of the client does not even contain a malformed-frame variant.
The inputs: an int decode on an empty buffer, an int decode on a 2-byte
buffer, a string decode whose length prefix declares 5 bytes when 1
remains, and a sequence decode whose count prefix declares 2 elements when
1 remains. -/
theorem C2_out_of_bounds :
    decode (id : Nat → Nat) Ty.tInt [] 0 = none ∧
    decode (id : Nat → Nat) Ty.tInt [1, 2] 0 = none ∧
    decode (id : Nat → Nat) Ty.tString [0, 0, 0, 5, 104] 0 = none ∧
    decode (id : Nat → Nat) (Ty.tSeq Ty.tInt) [0, 0, 0, 2, 0, 0, 0, 1] 0 = none :=
  ⟨rfl, rfl, rfl, rfl⟩

lemma unwrapFrame_append (c : List Nat) (hc : c.length = 4) (n : Nat) (hn : n < 2 ^ 32)
    (P : List Nat) (hnP : n ≤ P.length) :
    unwrapFrame (be32 n ++ c ++ P) = some (stringToMessage c, P.take n) := by
  have hu : readU32 (be32 n ++ c ++ P) 0 = n := by
    have h := readU32_be32 [] (c ++ P) n
    simp only [List.nil_append, List.length_nil] at h
    rw [List.append_assoc, h, Nat.mod_eq_of_lt hn]
  have hlen : (be32 n ++ c ++ P).length = 8 + P.length := by
    simp [length_be32, hc]; omega
  have hdrop4 : (be32 n ++ c ++ P).drop 4 = c ++ P := by
    have h4 : (4 : Nat) = (be32 n).length := (length_be32 _).symm
    rw [List.append_assoc, h4, List.drop_left]
  have hdrop8 : (be32 n ++ c ++ P).drop 8 = P := by
    have h8 : (8 : Nat) = (be32 n ++ c).length := by simp [length_be32, hc]
    rw [h8, List.drop_left]
  unfold unwrapFrame
  rw [hu, hlen, hdrop4, hdrop8]
  rw [if_pos (by omega), if_pos (by omega)]
  have htakec : (c ++ P).take 4 = c := by rw [← hc, List.take_left]
  rw [htakec]

lemma unwrapFrame_make (c : List Nat) (hc : c.length = 4) (P : List Nat)
    (hP : P.length < 2 ^ 32) :
    unwrapFrame (be32 P.length ++ c ++ P) = some (stringToMessage c, P) := by
  rw [unwrapFrame_append c hc P.length hP P (Nat.le_refl _), List.take_length]

/-- C3 (counterexample): with a payload of 2 ^ 32 bytes the frame header
holds the payload length truncated to 32 bits, 0, so no 4-byte big-endian
field equal to the byte length of the payload is produced, and unwrapping
the wrapped frame returns an empty payload instead of the original one. -/
theorem C3_counterexample :
    makeMessage .GET_POSE (List.replicate (2 ^ 32) 0) =
      some ([0, 0, 0, 0] ++ strBytes "GETP" ++ List.replicate (2 ^ 32) 0) ∧
    unwrapFrame ([0, 0, 0, 0] ++ strBytes "GETP" ++ List.replicate (2 ^ 32) 0) =
      some (.GET_POSE, []) ∧
    ([] : List Nat) ≠ List.replicate (2 ^ 32) 0 := by
  refine ⟨?_, ?_, ?_⟩
  · have hlen : (List.replicate (2 ^ 32) (0 : Nat)).length = 2 ^ 32 :=
      List.length_replicate _ _
    simp only [makeMessage, messageToString, Option.map_some', hlen]
    rw [show be32 (2 ^ 32) = [0, 0, 0, 0] from rfl]
  · rw [show ([0, 0, 0, 0] : List Nat) = be32 0 from rfl]
    rw [unwrapFrame_append (strBytes "GETP") rfl 0 (by norm_num)
      (List.replicate (2 ^ 32) 0) (Nat.zero_le _)]
    rw [List.take_zero]
    rfl
  · intro h
    have h2 := congrArg List.length h
    rw [List.length_nil, List.length_replicate] at h2
    exact absurd h2 (by norm_num)

/-- C3 (amended): for every non-UNKNOWN command and every payload of fewer
than 2 ^ 32 bytes, wrapping produces exactly the 4-byte big-endian payload
length, then the 4-byte code, then the payload, and unwrapping that frame
returns the command and payload unchanged. -/
theorem C3_frame_round_trip (m : ServerMessage) (c : List Nat)
    (hm : messageToString m = some c) (P : List Nat) (hP : P.length < 2 ^ 32) :
    makeMessage m P = some (be32 P.length ++ c ++ P) ∧
    unwrapFrame (be32 P.length ++ c ++ P) = some (m, P) := by
  constructor
  · simp [makeMessage, hm]
  · have hc : c.length = 4 := by
      cases m <;> simp [messageToString] at hm <;> simp [← hm, strBytes]
    rw [unwrapFrame_make c hc P hP]
    have hsm : stringToMessage c = m := by
      cases m <;> simp [messageToString] at hm <;> rw [← hm] <;> rfl
    rw [hsm]

/-- Witness for C3 (amended): the OK command with a 3-byte payload, and
the GET_POSE command with an empty payload. -/
theorem C3_frame_round_trip_witness :
    messageToString ServerMessage.OK = some (strBytes "OKOK") ∧
    ([5, 6, 7] : List Nat).length < 2 ^ 32 ∧
    makeMessage .OK [5, 6, 7] = some [0, 0, 0, 3, 79, 75, 79, 75, 5, 6, 7] ∧
    unwrapFrame [0, 0, 0, 3, 79, 75, 79, 75, 5, 6, 7] = some (.OK, [5, 6, 7]) ∧
    makeMessage .GET_POSE [] = some [0, 0, 0, 0, 71, 69, 84, 80] ∧
    unwrapFrame [0, 0, 0, 0, 71, 69, 84, 80] = some (.GET_POSE, []) := by
  have h1 := C3_frame_round_trip .OK (strBytes "OKOK") rfl [5, 6, 7] (by norm_num)
  have h2 := C3_frame_round_trip .GET_POSE (strBytes "GETP") rfl [] (by norm_num)
  exact ⟨rfl, by norm_num, h1.1, h1.2, h2.1, h2.2⟩

/-- C4 (evidence for the code bug): the payload loop requests 4096 bytes
on every iteration regardless of how many remain. On a frame declaring a
1-byte payload, delivered by a stream that already holds one further byte
(for example the start of the next frame), the read returns 2 bytes: the
receive operation consumes 10 bytes from the stream although header plus
declared payload is only 9, and in the C++ the second byte is written past
the end of the 1-byte payload buffer. -/
theorem C4_over_read :
    readMessage [0, 0, 0, 1, 79, 75, 79, 75, 9, 9] [4, 4, 2] =
      .ok (.OK, [9], 10) ∧ 8 + 1 < 10 :=
  ⟨rfl, by norm_num⟩

/-- C5 (counterexample): when the response command is neither the expected
one nor ERROR, the raised error is one fixed message; two validations with
different expected and actual commands produce the very same error, so the
error carries neither the expected nor the actual command. -/
theorem C5_counterexample :
    validateResponse .RET_POSE .OK [] = validateResponse .RET_SCORE .GET_VIZ [] ∧
    validateResponse .RET_POSE .OK [] =
      .error (.fatalError (strBytes "Megapose: got an unexpected message from the server")) :=
  ⟨rfl, rfl⟩

/-- C5 (amended): a response equal to the expected command is accepted; an
ERROR response fails with the server error carrying exactly the string
decoded from the payload by the string codec; any other mismatch fails
with a fixed unexpected-message error that carries neither the expected
nor the actual command. -/
theorem C5_validate (expected actual : ServerMessage) (payload s : List Nat) (i : Nat) :
    (actual = expected → validateResponse expected actual payload = .ok ()) ∧
    (actual = .ERR → actual ≠ expected → decString payload 0 = some (s, i) →
      validateResponse expected actual payload =
        .error (.badValue (strBytes "Server error : " ++ s))) ∧
    (actual ≠ .ERR → actual ≠ expected →
      validateResponse expected actual payload =
        .error (.fatalError (strBytes "Megapose: got an unexpected message from the server"))) := by
  refine ⟨?_, ?_, ?_⟩
  · intro h
    simp [validateResponse, h]
  · intro herr hne hdec
    subst herr
    simp [validateResponse, hne, handleWrongReturnMessage, hdec]
  · intro herr hne
    simp [validateResponse, hne, handleWrongReturnMessage, herr]

/-- Witness for C5 (amended): the three branches at concrete inputs, the
ERROR branch carrying the exact server string. -/
theorem C5_validate_witness :
    validateResponse .OK .OK [] = .ok () ∧
    decString (encString (strBytes "bad input")) 0 = some (strBytes "bad input", 13) ∧
    validateResponse .RET_POSE .ERR (encString (strBytes "bad input")) =
      .error (.badValue (strBytes "Server error : " ++ strBytes "bad input")) ∧
    validateResponse .RET_POSE .OK [] =
      .error (.fatalError (strBytes "Megapose: got an unexpected message from the server")) :=
  ⟨(C5_validate .OK .OK [] [] 0).1 rfl,
    by rfl,
    (C5_validate .RET_POSE .ERR (encString (strBytes "bad input"))
      (strBytes "bad input") 13).2.1 rfl (by decide) (by rfl),
    (C5_validate .RET_POSE .OK [] [] 0).2.2 (by decide) (by decide)⟩

/-- C6: each argument-validation failure of estimatePoses (both optional
arguments absent; a label count differing from the detection count or from
the initial pose count when those are given; a depth image without a
strictly positive scale) and of scorePoses (pose count differing from the
label count) makes the operation fail with a local badValue error before
anything is handed to the transport: the request never comes into being,
so zero bytes are sent. -/
theorem C6_validation (bigEndian : Bool) (image : ImageRGBa) (labels : List (List Nat))
    (depth : Option ImageU16) (depthToM : ℚ) (detections : Option (List Rect))
    (initialCTos : Option (List (List ℚ))) (dump : List Nat) (cTos : List (List ℚ)) :
    (detections = none → initialCTos = none →
      estimatePosesRequest bigEndian image labels depth depthToM detections initialCTos dump =
        .error (.badValue (strBytes
          "You must either provide detections (bounding boxes) or initial pose estimates for Megapose to work."))) ∧
    (∀ ds, detections = some ds → ds.length ≠ labels.length →
      ∃ msg, estimatePosesRequest bigEndian image labels depth depthToM detections initialCTos
        dump = .error (.badValue msg)) ∧
    (∀ ms, initialCTos = some ms → ms.length ≠ labels.length →
      ∃ msg, estimatePosesRequest bigEndian image labels depth depthToM detections initialCTos
        dump = .error (.badValue msg)) ∧
    (∀ d, depth = some d → depthToM ≤ 0 →
      ∃ msg, estimatePosesRequest bigEndian image labels depth depthToM detections initialCTos
        dump = .error (.badValue msg)) ∧
    (cTos.length ≠ labels.length →
      scorePosesRequest image labels cTos dump =
        .error (.badValue (strBytes
          "The number of poses should be the same as the number of object labels"))) := by
  refine ⟨?_, ?_, ?_, ?_, ?_⟩
  · intro h1 h2
    simp [estimatePosesRequest, h1, h2]
  · intro ds hds hne
    exact ⟨strBytes "Same number of bounding boxes and labels must be provided.",
      by simp [estimatePosesRequest, hds, countMismatch, hne]⟩
  · intro ms hms hne
    have hcm : countMismatch (some ms) labels.length = true := by
      simp [countMismatch, hne]
    by_cases hd : countMismatch detections labels.length
    · exact ⟨strBytes "Same number of bounding boxes and labels must be provided.",
        by simp [estimatePosesRequest, hms, hd]⟩
    · exact ⟨strBytes "An initial estimate should be given for each detected object in the image",
        by simp [estimatePosesRequest, hms, hd, hcm]⟩
  · intro d hd hscale
    by_cases h1 : detections = none ∧ initialCTos = none
    · exact ⟨strBytes
        "You must either provide detections (bounding boxes) or initial pose estimates for Megapose to work.",
        by simp [estimatePosesRequest, h1.1, h1.2]⟩
    · by_cases h2 : countMismatch detections labels.length
      · exact ⟨strBytes "Same number of bounding boxes and labels must be provided.",
          by simp [estimatePosesRequest, h1, h2]⟩
      · by_cases h3 : countMismatch initialCTos labels.length
        · exact ⟨strBytes "An initial estimate should be given for each detected object in the image",
            by simp [estimatePosesRequest, h1, h2, h3]⟩
        · exact ⟨strBytes "When using depth, the scale factor should be specified.",
            by simp [estimatePosesRequest, h1, h2, h3, hd, hscale]⟩
  · intro hne
    simp [scorePosesRequest, hne]

/-- Witness for C6: concrete validation failures of each kind, with the
empty image and transport-free outcomes computed explicitly. -/
theorem C6_validation_witness :
    estimatePosesRequest false (ImageRGBa.mk 0 0 []) [] none 1 none none [] =
      .error (.badValue (strBytes
        "You must either provide detections (bounding boxes) or initial pose estimates for Megapose to work.")) ∧
    (∃ msg, estimatePosesRequest false (ImageRGBa.mk 0 0 []) []
        none 1 (some [Rect.mk 0 0 0 0]) none [] = .error (.badValue msg)) ∧
    (∃ msg, estimatePosesRequest false (ImageRGBa.mk 0 0 []) []
        none 1 none (some [[1]]) [] = .error (.badValue msg)) ∧
    (∃ msg, estimatePosesRequest false (ImageRGBa.mk 0 0 [])
        [strBytes "cup"] (some (ImageU16.mk 0 0 [])) 0
        (some [Rect.mk 0 0 0 0]) none [] = .error (.badValue msg)) ∧
    scorePosesRequest (ImageRGBa.mk 0 0 []) [] [[1]] [] =
      .error (.badValue (strBytes
        "The number of poses should be the same as the number of object labels")) :=
  ⟨(C6_validation false (ImageRGBa.mk 0 0 []) [] none 1 none none [] []).1 rfl rfl,
    (C6_validation false (ImageRGBa.mk 0 0 []) [] none 1 (some [Rect.mk 0 0 0 0]) none
      [] []).2.1 [Rect.mk 0 0 0 0] rfl (by decide),
    (C6_validation false (ImageRGBa.mk 0 0 []) [] none 1 none (some [[1]]) [] []).2.2.1
      [[1]] rfl (by decide),
    (C6_validation false (ImageRGBa.mk 0 0 []) [strBytes "cup"] (some (ImageU16.mk 0 0 []))
      0 (some [Rect.mk 0 0 0 0]) none [] []).2.2.2.1 (ImageU16.mk 0 0 []) rfl (by norm_num),
    (C6_validation false (ImageRGBa.mk 0 0 []) [] none 1 none none [] [[1]]).2.2.2.2
      (by decide)⟩

/-- C7 (counterexample): with a transport that accepts 0 of the 12 frame
bytes (a maximally short write), the setIntrinsics cycle still succeeds:
the return value of send is ignored, so no IOError is raised for a
partial write. -/
theorem C7_counterexample :
    (setIntrinsics [] 0 (.ok (.OK, []))).1 = .ok () ∧
    (setIntrinsics [] 0 (.ok (.OK, []))).2 = [[0, 0, 0, 4, 73, 78, 84, 82, 0, 0, 0, 0]] ∧
    (0 : Nat) < ([0, 0, 0, 4, 73, 78, 84, 82, 0, 0, 0, 0] : List Nat).length :=
  ⟨rfl, rfl, by norm_num⟩

/-- C7 (amended): the full framed byte sequence is handed to one send
call, whose return value the operation ignores: the outcome of the cycle
is entirely independent of how many bytes the transport accepted, so a
partial write is neither detected nor reported. -/
theorem C7_short_write_ignored (dump : List Nat) (accepted1 accepted2 : Nat)
    (response : Except MegaErr (ServerMessage × List Nat)) :
    setIntrinsics dump accepted1 response = setIntrinsics dump accepted2 response ∧
    (setIntrinsics dump accepted1 response).2 =
      [be32 (encString dump).length ++ strBytes "INTR" ++ encString dump] := by
  constructor
  · rfl
  · have hm : makeMessage .SET_INTR (encString dump) =
        some (be32 (encString dump).length ++ strBytes "INTR" ++ encString dump) := rfl
    unfold setIntrinsics
    rw [hm]
    rcases response with e | pr
    · rfl
    · rcases pr with ⟨code, payload⟩
      by_cases h : code = .OK <;> simp [h]

/-- C10: with the socket created, the address valid and the peer
connected, constructing the client performs exactly one request/response
cycle before returning, whose single frame on the wire is the
SET_INTRINSICS request carrying the encoded parameter text; construction
succeeds exactly when that cycle is answered OK, an I/O failure of the
cycle propagates out of the constructor unchanged, and any other reply
makes the constructor fail through the response rejection. -/
theorem C10_constructor (dump : List Nat) (accepted : Nat)
    (response : Except MegaErr (ServerMessage × List Nat)) :
    (megaPoseConstruct true true true dump accepted response).2 =
      [be32 (encString dump).length ++ strBytes "INTR" ++ encString dump] ∧
    ((megaPoseConstruct true true true dump accepted response).1 = .ok () ↔
      ∃ payload, response = .ok (.OK, payload)) ∧
    (∀ e, response = .error e →
      (megaPoseConstruct true true true dump accepted response).1 = .error e) ∧
    (∀ code payload, response = .ok (code, payload) → code ≠ .OK →
      (megaPoseConstruct true true true dump accepted response).1 =
        .error (handleWrongReturnMessage code payload)) := by
  have hm : makeMessage .SET_INTR (encString dump) =
      some (be32 (encString dump).length ++ strBytes "INTR" ++ encString dump) := rfl
  have hred : megaPoseConstruct true true true dump accepted response =
      setIntrinsics dump accepted response := rfl
  refine ⟨?_, ?_, ?_, ?_⟩
  · rw [hred]
    unfold setIntrinsics
    rw [hm]
    rcases response with e | ⟨code, payload⟩
    · rfl
    · by_cases h : code = .OK <;> simp [h]
  · rw [hred]
    unfold setIntrinsics
    rw [hm]
    rcases response with e | ⟨code, payload⟩
    · simp
    · by_cases h : code = .OK <;> simp [h]
  · intro e he
    rw [hred, he]
    unfold setIntrinsics
    rw [hm]
  · intro code payload hr hne
    rw [hred, hr]
    unfold setIntrinsics
    rw [hm]
    simp [hne]

/-- Witness for C10: the constructor at concrete transports, one answered
OK, one failing with an I/O error, one answered with a wrong command. -/
theorem C10_constructor_witness :
    (megaPoseConstruct true true true [] 12 (.ok (.OK, []))).1 = .ok () ∧
    (megaPoseConstruct true true true [] 12 (.ok (.OK, []))).2 =
      [[0, 0, 0, 4, 73, 78, 84, 82, 0, 0, 0, 0]] ∧
    (megaPoseConstruct true true true [] 12
        (.error (.ioError (strBytes "down")))).1 = .error (.ioError (strBytes "down")) ∧
    (megaPoseConstruct true true true [] 12 (.ok (.GET_POSE, []))).1 =
      .error (.fatalError (strBytes "Megapose: got an unexpected message from the server")) := by
  refine ⟨((C10_constructor [] 12 (.ok (.OK, []))).2.1).mpr ⟨[], rfl⟩, by rfl, ?_, ?_⟩
  · exact (C10_constructor [] 12 (.error (.ioError (strBytes "down")))).2.2.1 _ rfl
  · rw [(C10_constructor [] 12 (.ok (.GET_POSE, []))).2.2.2 .GET_POSE [] rfl (by decide)]
    rfl

lemma u16MemoryBytes_length (bigEndian : Bool) (px : List Nat) :
    (u16MemoryBytes bigEndian px).length = 2 * px.length := by
  induction px with
  | nil => simp [u16MemoryBytes]
  | cons p px ih =>
    simp only [u16MemoryBytes, List.map_cons, List.flatten_cons, List.length_append,
      List.length_cons] at ih ⊢
    by_cases h : bigEndian <;> simp [h] at ih ⊢ <;> omega

/-- C8 (counterexample): a 1 by 1 single-channel 16-bit image with the
one pixel 513 on a little-endian host encodes to 11 bytes, height and
width then the marker then the two raw pixel bytes, and not to the layout
the claim asserts, which has a third 4-byte channel-count header field. -/
theorem C8_counterexample :
    encodeImageU16 false (ImageU16.mk 1 1 [513]) = [0, 0, 0, 1, 0, 0, 0, 1, 60, 1, 2] ∧
    claimImageU16Layout false (ImageU16.mk 1 1 [513]) =
      [0, 0, 0, 1, 0, 0, 0, 1, 0, 0, 0, 1, 60, 1, 2] ∧
    encodeImageU16 false (ImageU16.mk 1 1 [513]) ≠
      claimImageU16Layout false (ImageU16.mk 1 1 [513]) := by
  refine ⟨rfl, rfl, by decide⟩

/-- C8 (amended): the single-channel 16-bit image encoding is height and
width (each a 4-byte integer, with no channel-count field), then exactly
one endianness marker byte, 62 on a big-endian host and 60 otherwise, then
the raw pixel bytes copied from memory without byte-swapping; in total
9 + 2 times height times width bytes. -/
theorem C8_image_u16 (bigEndian : Bool) (img : ImageU16)
    (h : img.bitmap.length = img.height * img.width) :
    encodeImageU16 bigEndian img = amendedImageU16Layout bigEndian img ∧
    (encodeImageU16 bigEndian img).length = 9 + 2 * (img.height * img.width) := by
  constructor
  · unfold encodeImageU16 amendedImageU16Layout
    rw [← h, List.take_length]
  · unfold encodeImageU16
    rw [← h, List.take_length]
    simp [encInt, length_be32, u16MemoryBytes_length, h]
    omega

/-- Witness for C8 (amended): a concrete 1 by 2 image, both layouts and
the byte count evaluated. -/
theorem C8_image_u16_witness :
    (ImageU16.mk 1 2 [513, 7]).bitmap.length = 1 * 2 ∧
    encodeImageU16 false (ImageU16.mk 1 2 [513, 7]) =
      amendedImageU16Layout false (ImageU16.mk 1 2 [513, 7]) ∧
    (encodeImageU16 false (ImageU16.mk 1 2 [513, 7])).length = 9 + 2 * (1 * 2) :=
  ⟨rfl, (C8_image_u16 false (ImageU16.mk 1 2 [513, 7]) rfl).1,
    (C8_image_u16 false (ImageU16.mk 1 2 [513, 7]) rfl).2⟩

end Megapose
